import Mathlib

/-!
# Verification of `download_sorter.py`

A shallow embedding of the download-sorter pipeline
(`src/download_sorter.py`): routing table, classifier (`match_route`),
content extractor (`extract_text`), mover (`move_file`) and the
per-file pipeline (`process_file`), together with theorems settling the
specification claims.

Conventions of the embedding:
* Python strings are Lean `String`s; byte buffers are `List Nat`
  (each entry `< 256`).
* Filesystem paths are lists of path components (`FPath`); the
  filesystem visible to one processing task is an `FS` record listing
  the regular files and the directories that exist.
* Fallible Python code is modelled with `PyResult`: `.exc` is a raised
  exception, `.ok v` a normal return.
* The module `file_extensions.py` (`PLAIN_TEXT_EXTS`, `CODE_EXTS`,
  `CONTENT_SCAN_EXTS`) is not part of the sources; following the spec
  these three extension sets are carried as an explicit configuration
  record `SorterCfg` and quantified over.
* `time.sleep(SETTLE_SECONDS)` is modelled by giving `process_file` two
  filesystem states: `fs0`, observed before the settle delay, and
  `fs1`, observed after it (the world may change during the delay; the
  task itself changes nothing while suspended).
-/

/-- Raised-vs-returned outcome of a piece of Python code. -/
inductive PyResult (α : Type) where
  | ok (val : α)
  | exc
  deriving DecidableEq, Repr

/-- ASCII lower-casing of one character; model of what `str.lower`
does on the ASCII range (all strings in the claims are ASCII). -/
def lowerChar (c : Char) : Char :=
  if 'A' ≤ c ∧ c ≤ 'Z' then Char.ofNat (c.toNat + 32) else c

/-- Model of Python `str.lower` (ASCII case mapping). -/
def pyLower (s : String) : String := ⟨s.data.map lowerChar⟩

/-- Boolean test: is list `a` a prefix of list `b`? -/
def isPrefixL : List Char → List Char → Bool
  | [], _ => true
  | _ :: _, [] => false
  | a :: as, b :: bs => a = b && isPrefixL as bs

/-- Model of Python `needle in hay` on strings: contiguous-substring
containment (the empty needle is contained in everything). -/
def containsSub : List Char → List Char → Bool
  | needle, [] => isPrefixL needle []
  | needle, c :: rest => isPrefixL needle (c :: rest) || containsSub needle rest

/-- Model of Python `s.startswith(pre)`. -/
def startsWithStr (s pre : String) : Bool := isPrefixL pre.data s.data

/-- Index of the last `'.'` in a character list, if any. -/
def lastDotIdx : List Char → Option Nat
  | [] => none
  | c :: cs =>
    match lastDotIdx cs with
    | some i => some (i + 1)
    | none => if c = '.' then some 0 else none

/-- Model of `pathlib.PurePath.suffix` on a file name: the part of the
name from its last dot on, provided that dot is neither the first nor
the last character; otherwise the empty string. -/
def pySuffix (name : String) : String :=
  match lastDotIdx name.data with
  | some i => if 0 < i ∧ i + 1 < name.data.length then ⟨name.data.drop i⟩ else ""
  | none => ""

/-- Model of `pathlib.PurePath.stem` on a file name: the name with
`pySuffix` removed. -/
def pyStem (name : String) : String :=
  match lastDotIdx name.data with
  | some i => if 0 < i ∧ i + 1 < name.data.length then ⟨name.data.take i⟩ else name
  | none => name

/-! ## Decimal rendering of naturals (Python `str(i)` inside the
collision f-string). Implemented with explicit fuel so that it reduces
inside the kernel; `natDigitsF (n+1) n` always has enough fuel. -/

/-- The ASCII digit character for `d < 10`. -/
def digitChar10 (d : Nat) : Char := Char.ofNat (48 + d)

/-- Big-endian decimal digits of `n` (empty for `n = 0`), fuelled. -/
def natDigitsF : Nat → Nat → List Char
  | 0, _ => []
  | fuel + 1, n => if n = 0 then [] else natDigitsF fuel (n / 10) ++ [digitChar10 (n % 10)]

/-- Model of Python `str(i)` for a natural number. -/
def natRepr (n : Nat) : String :=
  if n = 0 then "0" else ⟨natDigitsF (n + 1) n⟩

/-! ## UTF-8 decoding with `errors="ignore"`

Model of `path.read_text(encoding="utf-8", errors="ignore")`
(download_sorter.py line 18): well-formed UTF-8 sequences decode to
their scalar value; an invalid start byte is dropped; a lead byte whose
continuation bytes are invalid or missing is dropped together with the
valid continuations already consumed, and decoding resumes at the
offending byte. -/

/-- Is `b` a UTF-8 continuation byte (`0x80..0xBF`)? -/
def isCont (b : Nat) : Bool := 0x80 ≤ b && b ≤ 0xBF

/-- Valid range of the first continuation byte after lead `b`
(UTF-8 shortest-form and surrogate/overflow exclusions). -/
def cont1Ok (b b2 : Nat) : Bool :=
  if b = 0xE0 then 0xA0 ≤ b2 && b2 ≤ 0xBF
  else if b = 0xED then 0x80 ≤ b2 && b2 ≤ 0x9F
  else if b = 0xF0 then 0x90 ≤ b2 && b2 ≤ 0xBF
  else if b = 0xF4 then 0x80 ≤ b2 && b2 ≤ 0x8F
  else isCont b2

/-- UTF-8 decoding, dropping undecodable bytes (`errors="ignore"`). -/
def utf8Ignore : List Nat → List Char
  | [] => []
  | b :: bs =>
    if b ≤ 0x7F then Char.ofNat b :: utf8Ignore bs
    else if 0xC2 ≤ b ∧ b ≤ 0xDF then
      match bs with
      | [] => []
      | b2 :: rest =>
        if isCont b2 then Char.ofNat ((b - 0xC0) * 0x40 + (b2 - 0x80)) :: utf8Ignore rest
        else utf8Ignore (b2 :: rest)
    else if 0xE0 ≤ b ∧ b ≤ 0xEF then
      match bs with
      | [] => []
      | b2 :: rest =>
        if cont1Ok b b2 then
          match rest with
          | [] => []
          | b3 :: rest2 =>
            if isCont b3 then
              Char.ofNat (((b - 0xE0) * 0x40 + (b2 - 0x80)) * 0x40 + (b3 - 0x80)) :: utf8Ignore rest2
            else utf8Ignore (b3 :: rest2)
        else utf8Ignore (b2 :: rest)
    else if 0xF0 ≤ b ∧ b ≤ 0xF4 then
      match bs with
      | [] => []
      | b2 :: rest =>
        if cont1Ok b b2 then
          match rest with
          | [] => []
          | b3 :: rest2 =>
            if isCont b3 then
              match rest2 with
              | [] => []
              | b4 :: rest3 =>
                if isCont b4 then
                  Char.ofNat ((((b - 0xF0) * 0x40 + (b2 - 0x80)) * 0x40 + (b3 - 0x80)) * 0x40 + (b4 - 0x80))
                    :: utf8Ignore rest3
                else utf8Ignore (b4 :: rest3)
            else utf8Ignore (b3 :: rest2)
        else utf8Ignore (b2 :: rest)
    else utf8Ignore bs

/-- Model of `path.read_text(encoding="utf-8", errors="ignore")` given
the raw bytes of the file. -/
def readTextIgnore (bytes : List Nat) : String := ⟨utf8Ignore bytes⟩

/-! ## Glob matching

Model of `fnmatch.fnmatch(lower_filename, pattern.lower())` as used at
download_sorter.py line 87. On POSIX, `fnmatch.fnmatch` is case
matching of the translated pattern against the whole name: `*` matches
any run, `?` one character, `[...]`/`[!...]` a character class (where a
`]` right after the opening, or after `!`, is literal, and `[` with no
closing bracket is a literal `[`). The pattern is first tokenized, then
matched; the matcher carries fuel so that it reduces in the kernel, and
the fuel chosen at the entry point always suffices (each step consumes
a token or a character). -/

/-- Split a character-class body at its closing `]`, honouring the
rules above. Returns `(negated, class contents, rest of pattern)`. -/
def splitAtRB : List Char → Option (List Char × List Char)
  | [] => none
  | ']' :: t => some ([], t)
  | c :: t =>
    match splitAtRB t with
    | some (a, b) => some (c :: a, b)
    | none => none

/-- Parse the body of a `[...]` class (input starts right after `[`). -/
def splitCls (cs : List Char) : Option (Bool × List Char × List Char) :=
  match cs with
  | '!' :: cs1 =>
    match cs1 with
    | ']' :: t =>
      match splitAtRB t with
      | some (a, b) => some (true, ']' :: a, b)
      | none => none
    | _ =>
      match splitAtRB cs1 with
      | some (a, b) => some (true, a, b)
      | none => none
  | _ =>
    match cs with
    | ']' :: t =>
      match splitAtRB t with
      | some (a, b) => some (false, ']' :: a, b)
      | none => none
    | _ =>
      match splitAtRB cs with
      | some (a, b) => some (false, a, b)
      | none => none

/-- Does character `c` match the (non-negated) class body? `a-b` is a
range unless the `-` is trailing. -/
def classMatch : List Char → Char → Bool
  | [], _ => false
  | a :: '-' :: b :: rest, c =>
    if a ≤ c ∧ c ≤ b then true else classMatch rest c
  | a :: rest, c => if a = c then true else classMatch rest c

/-- One token of a compiled glob pattern. -/
inductive GTok where
  | star
  | anyChar
  | cls (negated : Bool) (body : List Char)
  | lit (c : Char)
  deriving DecidableEq, Repr

/-- Tokenize a glob pattern (fuelled; `cs.length + 1` always
suffices since every step consumes at least one character). -/
def tokenizeF : Nat → List Char → List GTok
  | 0, _ => []
  | _ + 1, [] => []
  | fuel + 1, '*' :: ps => .star :: tokenizeF fuel ps
  | fuel + 1, '?' :: ps => .anyChar :: tokenizeF fuel ps
  | fuel + 1, '[' :: ps =>
    match splitCls ps with
    | some (neg, body, rest) => .cls neg body :: tokenizeF fuel rest
    | none => .lit '[' :: tokenizeF fuel ps
  | fuel + 1, c :: ps => .lit c :: tokenizeF fuel ps

/-- Tokenize a glob pattern. -/
def tokenize (cs : List Char) : List GTok := tokenizeF (cs.length + 1) cs

/-- Match a token list against a character list (fuelled; each step
consumes a token or a character, so `ts.length + s.length + 1`
suffices). The whole string must be consumed. -/
def gmatchF : Nat → List GTok → List Char → Bool
  | 0, _, _ => false
  | _ + 1, [], s => s.isEmpty
  | fuel + 1, .star :: ts, s =>
    gmatchF fuel ts s ||
      match s with
      | [] => false
      | _ :: s2 => gmatchF fuel (.star :: ts) s2
  | fuel + 1, .anyChar :: ts, s =>
    match s with
    | [] => false
    | _ :: s2 => gmatchF fuel ts s2
  | fuel + 1, .cls neg body :: ts, s =>
    match s with
    | [] => false
    | c :: s2 => (neg != classMatch body c) && gmatchF fuel ts s2
  | fuel + 1, .lit c :: ts, s =>
    match s with
    | [] => false
    | c2 :: s2 => c = c2 && gmatchF fuel ts s2

/-- Model of `fnmatch.fnmatch(name, pat)` on POSIX (where
`os.path.normcase` is the identity). -/
def fnmatch (name pat : String) : Bool :=
  let ts := tokenize pat.data
  gmatchF (ts.length + name.data.length + 1) ts name.data

/-! ## The route table -/

/-- The key/value pairs written in the `ROUTES` literal
(download_sorter.py lines 52-66), in source order. -/
def routesLiteral : List (String × String) :=
  [("invoice", "Finance"),
   ("receipt", "Finance"),
   ("tax", "Finance"),
   ("resume", "Resumes"),
   ("cover letter", "Resumes"),
   ("*.png", "Images"),
   ("*.jpg", "Images"),
   ("*.jpeg", "Images"),
   ("*.gif", "Images"),
   ("report", "Reports"),
   ("homework", "School"),
   ("assignment", "School")]

/-- Insert one key/value pair with Python `dict` semantics: an existing
key keeps its position and gets the new value; a new key is appended. -/
def pyDictInsert (d : List (String × String)) (k v : String) : List (String × String) :=
  if (d.map Prod.fst).contains k then
    d.map (fun p => if p.1 = k then (k, v) else p)
  else d ++ [(k, v)]

/-- Build a Python `dict` from a literal's key/value pairs; iteration
order of the result is insertion order of first occurrences. -/
def pyDictOfList (l : List (String × String)) : List (String × String) :=
  l.foldl (fun d p => pyDictInsert d p.1 p.2) []

/-- Model of `ROUTES` (download_sorter.py line 52): a Python dict built from
`routesLiteral`; `ROUTES.items()` iterates this list in order. -/
def ROUTES : List (String × String) := pyDictOfList routesLiteral

/-- Model of `SETTLE_SECONDS = 2.0` (download_sorter.py line 72); the float
literal is exactly the rational 2. -/
def SETTLE_SECONDS : ℚ := 2

/-! ## The classifier `match_route` -/

/-- Model of `any(ch in pattern for ch in "*?[]")` (download_sorter.py
lines 86/92/99): is the pattern treated as a glob? -/
def isGlobPat (p : String) : Bool := "*?[]".data.any (fun ch => p.data.contains ch)

/-- Computation of `lower_content` in `match_route`: `content.lower()
if content else ""`. -/
def pyLowerContent (c : String) : String := if c = "" then "" else pyLower c

/-- Glob-phase test of one route against a filename
(download_sorter.py lines 85-88). -/
def globPred (fn : String) (r : String × String) : Bool :=
  isGlobPat r.1 && fnmatch (pyLower fn) (pyLower r.1)

/-- Filename-keyword-phase test of one route (lines 91-94). -/
def kwFilePred (fn : String) (r : String × String) : Bool :=
  !isGlobPat r.1 && containsSub (pyLower r.1).data (pyLower fn).data

/-- Content-keyword-phase test of one route (lines 98-101). -/
def kwContentPred (c : String) (r : String × String) : Bool :=
  !isGlobPat r.1 && containsSub (pyLower r.1).data (pyLowerContent c).data

/-- Generalization of `match_route` over the route table it iterates
(the source iterates the global `ROUTES`): glob phase on the filename,
then keyword phase on the filename, then — when the lowered content is
non-empty — keyword phase on the content; first hit of the first
non-empty phase wins (download_sorter.py lines 75-103). -/
def match_route_over (routes : List (String × String)) (filename content : String) : Option String :=
  match routes.find? (globPred filename) with
  | some r => some r.2
  | none =>
    match routes.find? (kwFilePred filename) with
    | some r => some r.2
    | none =>
      if pyLowerContent content ≠ "" then
        match routes.find? (kwContentPred content) with
        | some r => some r.2
        | none => none
      else none

/-- Model of `match_route(filename, content)` (download_sorter.py line 75). -/
def match_route (filename content : String) : Option String :=
  match_route_over ROUTES filename content

/-! ## Filesystem model -/

/-- A filesystem path, as its list of components. -/
abbrev FPath := List String

/-- The filesystem as visible to one processing task: the set of
regular files and the set of directories (each a list of paths). -/
structure FS where
  files : List FPath
  dirs : List FPath
  deriving DecidableEq, Repr

/-- Symbolic `Path.home()` (its concrete value is irrelevant to every
claim). -/
def pyHome : FPath := ["home", "user"]

/-- Model of `DOWNLOADS = Path.home() / "Downloads"` (line 69). -/
def DOWNLOADS : FPath := pyHome ++ ["Downloads"]

/-- Model of `DEST_ROOT = Path.home() / "SortedDownloads"` (line 70). -/
def DEST_ROOT : FPath := pyHome ++ ["SortedDownloads"]

/-- Model of `path.name`: the final component of a path. -/
def pathName (p : FPath) : String := p.getLastD ""

/-- Model of `path.exists()`: the path is a regular file or a
directory. -/
def fsExists (fs : FS) (p : FPath) : Bool := decide (p ∈ fs.files ∨ p ∈ fs.dirs)

/-- Model of `path.is_file()`: the path is a regular file. -/
def fsIsFile (fs : FS) (p : FPath) : Bool := decide (p ∈ fs.files)

/-- Model of `is_temporary_download(p)` (download_sorter.py lines 45-47): the
lowered suffix is a known partial-download extension, or the name
starts with the Office lock prefix. -/
def is_temporary_download (name : String) : Bool :=
  [".crdownload", ".part", ".tmp", ".download"].contains (pyLower (pySuffix name))
    || startsWithStr name "~$"

/-! ## Content extraction -/

/-- The three extension sets imported from `file_extensions.py`.
Modelled from the spec: `file_extensions.py` is not among the sources,
so — per the spec's "plain-text / source-code extensions" categories and
its "content-scan allow-list" — the sets are carried as opaque
configuration data and quantified over in the theorems. -/
structure SorterCfg where
  plainTextExts : List String
  codeExts : List String
  contentScanExts : List String
  deriving DecidableEq, Repr

/-- Outcomes of the external reads `extract_text` may perform on one
file: the raw bytes behind `path.read_text` (`.exc` = `OSError`),
availability of the optional `PyPDF2` import, the outcome of opening
the PDF and extracting its pages (`none` entries model pages whose
`extract_text()` returned `None`, which the source replaces by `""`),
availability of the optional `docx` import, and the outcome of reading
the document's paragraph texts. -/
structure FileOracle where
  bytes : PyResult (List Nat)
  pdfImportOk : Bool
  pdfPages : PyResult (List (Option String))
  docxImportOk : Bool
  docxParas : PyResult (List String)
  deriving DecidableEq, Repr

/-- Model of `"\n".join(parts)`. -/
def joinNL : List String → String
  | [] => ""
  | [s] => s
  | s :: rest => s ++ "\n" ++ joinNL rest

/-- Body of the outer `try` of `extract_text` (download_sorter.py
lines 14-39): plain-text/code extensions are decoded with
`errors="ignore"` (an `OSError` escapes to the outer handler); the PDF
and Word branches wrap their work in an inner `try` that absorbs any
exception — a failed optional import included — into `""`; any other
suffix falls through. The trailing `return ""` of line 42 is appended
by `extract_text` below. -/
def extract_body (cfg : SorterCfg) (o : FileOracle) (name : String) : PyResult (Option String) :=
  let suffix := pyLower (pySuffix name)
  if cfg.plainTextExts.contains suffix || cfg.codeExts.contains suffix then
    match o.bytes with
    | .ok bs => .ok (some (readTextIgnore bs))
    | .exc => .exc
  else if suffix = ".pdf" then
    .ok (some
      (match (if o.pdfImportOk then o.pdfPages else .exc) with
       | .ok pages => joinNL (pages.map (fun pg => pg.getD ""))
       | .exc => ""))
  else if [".docx", ".docm", ".dotx", ".dotm"].contains suffix then
    .ok (some
      (match (if o.docxImportOk then o.docxParas else .exc) with
       | .ok ps => joinNL ps
       | .exc => ""))
  else .ok none

/-- Model of `extract_text(path)` (download_sorter.py lines 9-42): the body
above, with the outer `except Exception: return ""` and the final
`return ""` for suffixes no branch handled. -/
def extract_text (cfg : SorterCfg) (o : FileOracle) (name : String) : PyResult String :=
  match extract_body cfg o name with
  | .ok (some s) => .ok s
  | .ok none => .ok ""
  | .exc => .ok ""

/-! ## The mover `move_file` -/

/-- Append directory `d` to the directory list if absent
(`mkdir(exist_ok=True)` is an idempotent no-op). -/
def addDirIfAbsent (ds : List FPath) (d : FPath) : List FPath :=
  if ds.contains d then ds else ds ++ [d]

/-- Model of `dest_dir.mkdir(parents=True, exist_ok=True)` (line 108): create
the directory and every ancestor prefix, idempotently. -/
def mkdirParents (ds : List FPath) (d : FPath) : List FPath :=
  (List.range (d.length + 1)).foldl (fun acc n => addDirIfAbsent acc (d.take n)) ds

/-- The probed collision name `f"{stem} ({i}){suf}"` (line 116). -/
def mkCandidate (stem suf : String) (i : Nat) : String :=
  stem ++ " (" ++ natRepr i ++ ")" ++ suf

/-- Model of `dest_dir = DEST_ROOT / subfolder` (line 107). -/
def moveDestDir (subfolder : String) : FPath := DEST_ROOT ++ [subfolder]

/-- The filesystem right after the `mkdir` of line 108. -/
def moveFs1 (fs : FS) (subfolder : String) : FS :=
  { fs with dirs := mkdirParents fs.dirs (moveDestDir subfolder) }

/-- Fuel for the collision probe: one more than the number of existing
filesystem entries. Since the probed candidate names are pairwise
distinct, some candidate among the first `moveFuel` ones is always
free, so the probe never runs out (see `probe_at_move_isSome`). -/
def moveFuel (fs : FS) : Nat := fs.files.length + fs.dirs.length + 1

/-- The collision probe of lines 114-120: try `i`, `i+1`, ... until a
candidate name that does not exist in `dest_dir`. -/
def probe (fs : FS) (dd : FPath) (stem suf : String) : Nat → Nat → Option Nat
  | _, 0 => none
  | i, fuel + 1 =>
    if fsExists fs (dd ++ [mkCandidate stem suf i]) then
      probe fs dd stem suf (i + 1) fuel
    else some i

/-- Model of `move_file(src, subfolder)` (download_sorter.py lines 106-123):
create the destination directory, resolve a name collision by probing
`stem (1)suf`, `stem (2)suf`, ... starting from 1, then relocate the
file (`shutil.move`). Returns the new filesystem and the final path.
The `none` probe branch is unreachable (`probe_at_move_isSome`). -/
def move_file (fs : FS) (src : FPath) (subfolder : String) : FS × Option FPath :=
  let fs1 := moveFs1 fs subfolder
  let dd := moveDestDir subfolder
  let name := pathName src
  let destName :=
    if fsExists fs1 (dd ++ [name]) then
      match probe fs1 dd (pyStem name) (pySuffix name) 1 (moveFuel fs1) with
      | some i => mkCandidate (pyStem name) (pySuffix name) i
      | none => name
    else name
  ({ fs1 with files := fs1.files.erase src ++ [dd ++ [destName]] }, some (dd ++ [destName]))

/-! ## The per-file pipeline `process_file` -/

/-- Lines 141-143: extract content only when the lowered suffix is in
the content-scan allow-list, else use `""`. -/
def scanned_content (cfg : SorterCfg) (o : FileOracle) (name : String) : PyResult String :=
  if cfg.contentScanExts.contains (pyLower (pySuffix name)) then
    extract_text cfg o name
  else .ok ""

/-- Lines 145-147: classify, and move on a truthy destination
(Python's `if subfolder:` is false for `None` and for `""`). -/
def classifyAndMove (fs : FS) (p : FPath) (content : String) : FS × Option FPath :=
  match match_route (pathName p) content with
  | some folder => if folder = "" then (fs, none) else move_file fs p folder
  | none => (fs, none)

/-- Model of `process_file(path)` (download_sorter.py lines 126-147): `fs0` is
the filesystem observed before `time.sleep(SETTLE_SECONDS)`, `fs1` the
one observed after it; a skip leaves the world at `fs1`, a move edits
`fs1`. The returned option is the destination path of a performed
move. -/
def process_file (cfg : SorterCfg) (o : FileOracle) (fs0 fs1 : FS) (p : FPath) :
    PyResult (FS × Option FPath) :=
  if !(fsExists fs0 p && fsIsFile fs0 p) then .ok (fs1, none)
  else if is_temporary_download (pathName p) then .ok (fs1, none)
  else
    -- time.sleep(SETTLE_SECONDS): the world moves from fs0 to fs1
    if !(fsExists fs1 p && fsIsFile fs1 p) then .ok (fs1, none)
    else if is_temporary_download (pathName p) then .ok (fs1, none)
    else
      match scanned_content cfg o (pathName p) with
      | .exc => .exc
      | .ok content => .ok (classifyAndMove fs1 p content)

/-- The admission test that `process_file` runs twice, once before and
once after the settle delay (download_sorter.py lines 127-130 and
136-139): exists, is a regular file, and is not a temporary artifact. -/
def admit_checks (fs : FS) (p : FPath) : Bool :=
  (fsExists fs p && fsIsFile fs p) && !is_temporary_download (pathName p)

/-- Value of a list of decimal digit characters, most significant
first (left inverse of `natDigitsF`, used to prove injectivity of the
collision-name rendering). -/
def digitsVal (cs : List Char) : Nat :=
  cs.foldl (fun a c => a * 10 + (c.toNat - 48)) 0

/-! ## Concrete sample data for the witnesses -/

/-- Configuration with all three extension sets empty. -/
def cfgNone : SorterCfg := ⟨[], [], []⟩

/-- Configuration whose plain-text set and content-scan allow-list
both hold exactly the extension string for text files. -/
def cfgTxt : SorterCfg := ⟨[".txt"], [], [".txt"]⟩

/-- Oracle for a file every read of which fails. -/
def oracleNone : FileOracle := ⟨.exc, false, .exc, false, .exc⟩

/-- Oracle for a file whose raw bytes are `a`, an invalid UTF-8 byte,
then `b`. -/
def oracleAB : FileOracle := ⟨.ok [97, 255, 98], false, .exc, false, .exc⟩

/-- Sample source path of a file named like a plain text file. -/
def srcATxt : FPath := DOWNLOADS ++ ["a.txt"]

/-- Filesystem in which the destination folder already holds a file
with the same name as the source. -/
def fsOneColl : FS :=
  ⟨[srcATxt, DEST_ROOT ++ ["Files", "a.txt"]], [DEST_ROOT, DEST_ROOT ++ ["Files"]]⟩

/-- Filesystem in which the destination folder already holds the
original name and its first probed variant. -/
def fsTwoColl : FS :=
  ⟨[srcATxt, DEST_ROOT ++ ["Files", "a.txt"], DEST_ROOT ++ ["Files", "a (1).txt"]],
   [DEST_ROOT, DEST_ROOT ++ ["Files"]]⟩

/-- Sample path whose name matches no route at all. -/
def pZzz : FPath := DOWNLOADS ++ ["zzz"]

/-- Filesystem holding only `pZzz`. -/
def fsZzz : FS := ⟨[pZzz], []⟩

/-- Sample path of an in-progress browser download. -/
def pCrdl : FPath := DOWNLOADS ++ ["report.crdownload"]

/-- Filesystem holding only `pCrdl`. -/
def fsCrdl : FS := ⟨[pCrdl], []⟩

/-- Sample path of a dotfile named exactly like a temporary-download
extension. -/
def pDotCrdl : FPath := DOWNLOADS ++ [".crdownload"]

/-- Filesystem holding only `pDotCrdl`. -/
def fsDotCrdl : FS := ⟨[pDotCrdl], []⟩

/-- Sample path of a text file. -/
def pNotes : FPath := DOWNLOADS ++ ["notes.txt"]

/-- Filesystem holding only `pNotes`. -/
def fsNotes : FS := ⟨[pNotes], []⟩

/-! ## Phase structure of the classifier -/

/-- Helper: a glob-phase hit short-circuits `match_route_over`. -/
theorem match_route_over_glob {routes : List (String × String)} {fn content : String}
    {r : String × String} (h : routes.find? (globPred fn) = some r) :
    match_route_over routes fn content = some r.2 := by
  simp [match_route_over, h]

/-- Helper: with no glob hit, a filename-keyword hit wins. -/
theorem match_route_over_kw {routes : List (String × String)} {fn content : String}
    {r : String × String} (hg : routes.find? (globPred fn) = none)
    (hk : routes.find? (kwFilePred fn) = some r) :
    match_route_over routes fn content = some r.2 := by
  simp [match_route_over, hg, hk]

/-- Helper: with no filename-level hit and non-empty content, a
content-keyword hit wins. -/
theorem match_route_over_content {routes : List (String × String)} {fn content : String}
    {r : String × String} (hg : routes.find? (globPred fn) = none)
    (hk : routes.find? (kwFilePred fn) = none)
    (hc : pyLowerContent content ≠ "")
    (hcf : routes.find? (kwContentPred content) = some r) :
    match_route_over routes fn content = some r.2 := by
  simp [match_route_over, hg, hk, hc, hcf]

/-- Helper: when every phase misses, `match_route_over` is `none`. -/
theorem match_route_over_none {routes : List (String × String)} {fn content : String}
    (hg : routes.find? (globPred fn) = none)
    (hk : routes.find? (kwFilePred fn) = none)
    (hc : pyLowerContent content ≠ "" → routes.find? (kwContentPred content) = none) :
    match_route_over routes fn content = none := by
  by_cases hcc : pyLowerContent content = ""
  · simp [match_route_over, hg, hk, hcc]
  · simp [match_route_over, hg, hk, hcc, hc hcc]

/-- C1: if any glob-pattern route matches the filename
case-insensitively, `match_route` returns the destination of the first
such route in table order — for every content, so the filename-keyword
and content-keyword phases are never consulted even when a keyword
route would also match. -/
theorem glob_phase_wins (fn : String) (r : String × String)
    (h : ROUTES.find? (globPred fn) = some r) :
    ∀ content : String, match_route fn content = some r.2 := by
  intro content
  unfold match_route
  exact match_route_over_glob h

/-- Witness for C1: the first glob route matching `photo.PNG` is
`*.png -> Images`, and `match_route` routes the file to `Images` even
though its content contains the keyword `resume`. -/
theorem glob_phase_wins_witness :
    ROUTES.find? (globPred "photo.PNG") = some ("*.png", "Images") ∧
      match_route "photo.PNG" "resume" = some "Images" :=
  ⟨by decide, glob_phase_wins "photo.PNG" ("*.png", "Images") (by decide) "resume"⟩

/-! ## The route table is a Python dict -/

/-- Counterexample for C4: the source's route table is a Python dict,
so duplicate patterns with different destinations are not retained as
separate pairs — writing the pattern twice leaves a single entry whose
destination is the last one written, and matching returns that later
destination, not the first-inserted one. -/
theorem routes_dict_collapses_duplicates :
    pyDictOfList [("invoice", "Finance"), ("invoice", "Money")] = [("invoice", "Money")] ∧
      ("invoice", "Finance") ∉ pyDictOfList [("invoice", "Finance"), ("invoice", "Money")] ∧
      match_route_over (pyDictOfList [("invoice", "Finance"), ("invoice", "Money")])
        "invoice.txt" "" = some "Money" ∧
      match_route_over (pyDictOfList [("invoice", "Finance"), ("invoice", "Money")])
        "invoice.txt" "" ≠ some "Finance" := by
  decide

/-- Helper: one dict insertion keeps the key list duplicate-free. -/
theorem pyDictInsert_keys_nodup {d : List (String × String)}
    (h : (d.map Prod.fst).Nodup) (k v : String) :
    ((pyDictInsert d k v).map Prod.fst).Nodup := by
  unfold pyDictInsert
  by_cases hc : (d.map Prod.fst).contains k
  · rw [if_pos hc]
    have heq : (d.map (fun p => if p.1 = k then (k, v) else p)).map Prod.fst = d.map Prod.fst := by
      rw [List.map_map]
      apply List.map_congr_left
      intro p _
      by_cases hp : p.1 = k
      · simp [hp]
      · simp [hp]
    rw [heq]; exact h
  · rw [if_neg hc]
    have hk : k ∉ d.map Prod.fst := by
      intro hmem
      exact hc (List.elem_iff.mpr hmem)
    simp [List.nodup_append, h, hk]

/-- Helper: the key list of a Python dict is duplicate-free. -/
theorem pyDictOfList_keys_nodup (l : List (String × String)) :
    ((pyDictOfList l).map Prod.fst).Nodup := by
  suffices h : ∀ d : List (String × String), (d.map Prod.fst).Nodup →
      (((l.foldl (fun d p => pyDictInsert d p.1 p.2) d)).map Prod.fst).Nodup by
    exact h [] (by simp)
  induction l with
  | nil => intro d hd; simpa using hd
  | cons p t ih => intro d hd; exact ih _ (pyDictInsert_keys_nodup hd p.1 p.2)

/-- C4 (amended): the route table is a Python dict — an ordered,
key-unique mapping: its patterns are pairwise distinct (duplicates in
the literal collapse to one entry holding the last destination), the
actual `ROUTES` literal has no duplicates so the table is exactly the
written sequence, and within each matching phase the first matching
entry in table order determines the destination. -/
theorem routes_table_ordered_unique :
    (∀ l : List (String × String), ((pyDictOfList l).map Prod.fst).Nodup) ∧
      ROUTES = routesLiteral ∧
      (∀ (routes : List (String × String)) (fn content : String) (r : String × String),
        routes.find? (globPred fn) = some r →
        match_route_over routes fn content = some r.2) ∧
      (∀ (routes : List (String × String)) (fn content : String) (r : String × String),
        routes.find? (globPred fn) = none →
        routes.find? (kwFilePred fn) = some r →
        match_route_over routes fn content = some r.2) ∧
      (∀ (routes : List (String × String)) (fn content : String) (r : String × String),
        routes.find? (globPred fn) = none →
        routes.find? (kwFilePred fn) = none →
        pyLowerContent content ≠ "" →
        routes.find? (kwContentPred content) = some r →
        match_route_over routes fn content = some r.2) := by
  refine ⟨pyDictOfList_keys_nodup, by decide, ?_, ?_, ?_⟩
  · intro routes fn content r h
    exact match_route_over_glob h
  · intro routes fn content r hg hk
    exact match_route_over_kw hg hk
  · intro routes fn content r hg hk hc hcf
    exact match_route_over_content hg hk hc hcf

/-- Witness for the amended C4: on a table handed two pairs with the
same pattern, the first entry in table order wins the glob phase. -/
theorem routes_table_ordered_unique_witness :
    match_route_over [("*.png", "Images"), ("*.png", "Pics")] "b.png" "" = some "Images" :=
  routes_table_ordered_unique.2.2.1 [("*.png", "Images"), ("*.png", "Pics")] "b.png" ""
    ("*.png", "Images") (by decide)

/-! ## The content extractor never raises -/

/-- Helper: `extract_text` always returns normally. -/
theorem extract_text_isOk (cfg : SorterCfg) (o : FileOracle) (name : String) :
    ∃ s, extract_text cfg o name = .ok s := by
  unfold extract_text
  cases h : extract_body cfg o name with
  | ok v =>
    cases v with
    | some s => exact ⟨s, rfl⟩
    | none => exact ⟨"", rfl⟩
  | exc => exact ⟨"", rfl⟩

/-- Helper: `scanned_content` always returns normally. -/
theorem scanned_content_isOk (cfg : SorterCfg) (o : FileOracle) (name : String) :
    ∃ s, scanned_content cfg o name = .ok s := by
  unfold scanned_content
  by_cases h : cfg.contentScanExts.contains (pyLower (pySuffix name)) = true
  · rw [if_pos h]; exact extract_text_isOk cfg o name
  · rw [if_neg h]; exact ⟨"", rfl⟩

/-- C5: `extract_text` never raises, and returns the empty string for
an unsupported file type, for a PDF or Word file whose optional parser
is missing or failing, and for a textual file whose read fails. -/
theorem extract_text_never_raises :
    (∀ (cfg : SorterCfg) (o : FileOracle) (name : String),
      ∃ s, extract_text cfg o name = .ok s) ∧
      (∀ (cfg : SorterCfg) (o : FileOracle) (name : String),
        cfg.plainTextExts.contains (pyLower (pySuffix name)) = false →
        cfg.codeExts.contains (pyLower (pySuffix name)) = false →
        pyLower (pySuffix name) ≠ ".pdf" →
        [".docx", ".docm", ".dotx", ".dotm"].contains (pyLower (pySuffix name)) = false →
        extract_text cfg o name = .ok "") ∧
      (∀ (cfg : SorterCfg) (o : FileOracle) (name : String),
        cfg.plainTextExts.contains (pyLower (pySuffix name)) = false →
        cfg.codeExts.contains (pyLower (pySuffix name)) = false →
        pyLower (pySuffix name) = ".pdf" →
        o.pdfImportOk = false ∨ o.pdfPages = .exc →
        extract_text cfg o name = .ok "") ∧
      (∀ (cfg : SorterCfg) (o : FileOracle) (name : String),
        cfg.plainTextExts.contains (pyLower (pySuffix name)) = false →
        cfg.codeExts.contains (pyLower (pySuffix name)) = false →
        pyLower (pySuffix name) ≠ ".pdf" →
        [".docx", ".docm", ".dotx", ".dotm"].contains (pyLower (pySuffix name)) = true →
        o.docxImportOk = false ∨ o.docxParas = .exc →
        extract_text cfg o name = .ok "") ∧
      (∀ (cfg : SorterCfg) (o : FileOracle) (name : String),
        cfg.plainTextExts.contains (pyLower (pySuffix name)) = true ∨
          cfg.codeExts.contains (pyLower (pySuffix name)) = true →
        o.bytes = .exc →
        extract_text cfg o name = .ok "") := by
  refine ⟨extract_text_isOk, ?_, ?_, ?_, ?_⟩
  · intro cfg o name h1 h2 h3 h4
    simp at h1 h2 h4
    simp [extract_text, extract_body, h1, h2, h3, h4]
  · intro cfg o name h1 h2 h3 h4
    rw [h3] at h1 h2
    simp at h1 h2
    rcases h4 with h4 | h4 <;>
      simp [extract_text, extract_body, h1, h2, h3, h4]
  · intro cfg o name h1 h2 h3 h4 h5
    simp at h1 h2 h4
    rcases h5 with h5 | h5 <;>
      simp [extract_text, extract_body, h1, h2, h3, h4, h5]
  · intro cfg o name h1 h2
    rcases h1 with h1 | h1 <;> simp at h1 <;>
      simp [extract_text, extract_body, h1, h2]

/-- Witness for C5: an extension no branch supports yields the empty
string. -/
theorem extract_text_never_raises_witness :
    extract_text cfgNone oracleNone "setup.exe" = .ok "" :=
  extract_text_never_raises.2.1 cfgNone oracleNone "setup.exe"
    (by decide) (by decide) (by decide) (by decide)

/-! ## What the extractor does with undecodable bytes -/

/-- Helper: on input every byte of which is either ASCII or an invalid
UTF-8 start byte, ignore-decoding keeps exactly the ASCII bytes and
silently drops the invalid ones. -/
theorem utf8Ignore_ascii_or_invalid (bs : List Nat)
    (h : ∀ b ∈ bs, b ≤ 0x7F ∨ (0x80 ≤ b ∧ b ≤ 0xC1) ∨ 0xF5 ≤ b) :
    utf8Ignore bs = (bs.filter (fun b => decide (b ≤ 0x7F))).map Char.ofNat := by
  induction bs with
  | nil => rfl
  | cons b t ih =>
    have hb := h b (by simp)
    have ht := ih (fun x hx => h x (by simp [hx]))
    rcases hb with h1 | h2 | h3
    · rw [utf8Ignore.eq_def]
      simp only [h1, if_true, if_pos h1]
      rw [List.filter_cons_of_pos (by simpa using h1), List.map_cons, ht]
    · have c1 : ¬ b ≤ 0x7F := by omega
      have c2 : ¬ (0xC2 ≤ b ∧ b ≤ 0xDF) := by omega
      have c3 : ¬ (0xE0 ≤ b ∧ b ≤ 0xEF) := by omega
      have c4 : ¬ (0xF0 ≤ b ∧ b ≤ 0xF4) := by omega
      rw [utf8Ignore.eq_def]
      simp only [c1, c2, c3, c4, if_false, ite_false]
      rw [List.filter_cons_of_neg (by simpa using c1), ht]
    · have c1 : ¬ b ≤ 0x7F := by omega
      have c2 : ¬ (0xC2 ≤ b ∧ b ≤ 0xDF) := by omega
      have c3 : ¬ (0xE0 ≤ b ∧ b ≤ 0xEF) := by omega
      have c4 : ¬ (0xF0 ≤ b ∧ b ≤ 0xF4) := by omega
      rw [utf8Ignore.eq_def]
      simp only [c1, c2, c3, c4, if_false, ite_false]
      rw [List.filter_cons_of_neg (by simpa using c1), ht]

/-- Counterexample for C7: `extract_text` reads text files with
`errors="ignore"`, which silently drops an undecodable byte instead of
replacing it: on bytes `97, 255, 98` the result is exactly `ab` — the
same as for bytes `97, 98` — and contains no replacement character
(U+FFFD) for the dropped byte `255`. -/
theorem extract_text_ignore_counterexample :
    oracleAB.bytes = .ok [97, 255, 98] ∧
      extract_text cfgTxt oracleAB "notes.txt" = .ok "ab" ∧
      utf8Ignore [97, 255, 98] = utf8Ignore [97, 98] ∧
      "ab".data.contains (Char.ofNat 0xFFFD) = false := by
  decide

/-- C7 (amended): for a file with a plain-text or source-code
extension, `extract_text` decodes the bytes as UTF-8 and silently
drops undecodable bytes rather than failing or replacing them: when
every byte is ASCII or an invalid start byte, the result is exactly
the ASCII characters, with each undecodable byte omitted and no
replacement inserted for it. -/
theorem extract_text_drops_undecodable (cfg : SorterCfg) (o : FileOracle)
    (name : String) (bs : List Nat)
    (h1 : cfg.plainTextExts.contains (pyLower (pySuffix name)) = true ∨
      cfg.codeExts.contains (pyLower (pySuffix name)) = true)
    (h2 : o.bytes = .ok bs)
    (h3 : ∀ b ∈ bs, b ≤ 0x7F ∨ (0x80 ≤ b ∧ b ≤ 0xC1) ∨ 0xF5 ≤ b) :
    extract_text cfg o name = .ok ⟨(bs.filter (fun b => decide (b ≤ 0x7F))).map Char.ofNat⟩ := by
  have hdec := utf8Ignore_ascii_or_invalid bs h3
  rcases h1 with h1 | h1 <;> simp at h1 <;>
    simp [extract_text, extract_body, h1, h2, readTextIgnore, hdec]

/-- Witness for the amended C7: on the bytes `97, 255, 98` of a text
file, extraction yields the two ASCII characters with the byte `255`
dropped. -/
theorem extract_text_drops_undecodable_witness :
    extract_text cfgTxt oracleAB "notes.txt" =
      .ok ⟨([97, 255, 98].filter (fun b => decide (b ≤ 0x7F))).map Char.ofNat⟩ :=
  extract_text_drops_undecodable cfgTxt oracleAB "notes.txt" [97, 255, 98]
    (by decide) (by decide) (by decide)

/-! ## Temporary artifacts and admission -/

/-- C3: a file whose name matches the temporary-download convention is
never moved, regardless of content: `process_file` returns without
calling `move_file`, leaving the filesystem unchanged. -/
theorem temporary_never_moved (cfg : SorterCfg) (o : FileOracle) (fs0 fs1 : FS)
    (p : FPath) (h : is_temporary_download (pathName p) = true) :
    process_file cfg o fs0 fs1 p = .ok (fs1, none) := by
  unfold process_file
  cases hab : (fsExists fs0 p && fsIsFile fs0 p) with
  | false => simp [hab]
  | true => simp [hab, h]

/-- Witness for C3: `report.crdownload` is temporary and is skipped. -/
theorem temporary_never_moved_witness :
    is_temporary_download (pathName pCrdl) = true ∧
      process_file cfgNone oracleNone fsCrdl fsCrdl pCrdl = .ok (fsCrdl, none) :=
  ⟨by decide, temporary_never_moved cfgNone oracleNone fsCrdl fsCrdl pCrdl (by decide)⟩

/-- C6: admission is two-phase with a fixed settle delay of 2 seconds:
a file failing the existence/regular-file/temporary checks on the
first round (before the delay) or the second round (after it) is
rejected with no move, and a file passing both rounds proceeds to
extraction, classification and moving. -/
theorem process_two_phase_admission :
    SETTLE_SECONDS = 2 ∧
      (∀ (cfg : SorterCfg) (o : FileOracle) (fs0 fs1 : FS) (p : FPath),
        admit_checks fs0 p = false →
        process_file cfg o fs0 fs1 p = .ok (fs1, none)) ∧
      (∀ (cfg : SorterCfg) (o : FileOracle) (fs0 fs1 : FS) (p : FPath),
        admit_checks fs1 p = false →
        process_file cfg o fs0 fs1 p = .ok (fs1, none)) ∧
      (∀ (cfg : SorterCfg) (o : FileOracle) (fs0 fs1 : FS) (p : FPath),
        admit_checks fs0 p = true → admit_checks fs1 p = true →
        ∃ content, scanned_content cfg o (pathName p) = .ok content ∧
          process_file cfg o fs0 fs1 p = .ok (classifyAndMove fs1 p content)) := by
  refine ⟨rfl, ?_, ?_, ?_⟩
  · intro cfg o fs0 fs1 p h
    unfold process_file
    cases hab : (fsExists fs0 p && fsIsFile fs0 p) with
    | false => simp [hab]
    | true =>
      cases htmp : is_temporary_download (pathName p) with
      | true => simp [hab, htmp]
      | false =>
        exfalso
        rw [admit_checks, hab, htmp] at h
        simp at h
  · intro cfg o fs0 fs1 p h
    unfold process_file
    cases hab0 : (fsExists fs0 p && fsIsFile fs0 p) with
    | false => simp [hab0]
    | true =>
      cases htmp : is_temporary_download (pathName p) with
      | true => simp [hab0, htmp]
      | false =>
        cases hab1 : (fsExists fs1 p && fsIsFile fs1 p) with
        | false => simp [hab0, htmp, hab1]
        | true =>
          exfalso
          rw [admit_checks, hab1, htmp] at h
          simp at h
  · intro cfg o fs0 fs1 p h0 h1
    obtain ⟨c, hc⟩ := scanned_content_isOk cfg o (pathName p)
    refine ⟨c, hc, ?_⟩
    rw [admit_checks, Bool.and_eq_true] at h0 h1
    obtain ⟨hab0, htmp0⟩ := h0
    obtain ⟨hab1, _⟩ := h1
    have htmp : is_temporary_download (pathName p) = false := by
      cases hx : is_temporary_download (pathName p) with
      | false => rfl
      | true => rw [hx] at htmp0; simp at htmp0
    unfold process_file
    simp [hab0, hab1, htmp, hc]

/-- Witness for C6: a path that does not exist in the pre-delay
filesystem is rejected. -/
theorem process_two_phase_admission_witness :
    process_file cfgNone oracleNone fsZzz fsZzz pCrdl = .ok (fsZzz, none) :=
  process_two_phase_admission.2.1 cfgNone oracleNone fsZzz fsZzz pCrdl (by decide)

/-! ## The content-scan allow-list -/

/-- C8: content extraction happens only for files whose lowered
extension is in the content-scan allow-list: for any other file the
pipeline's outcome is independent of anything extraction could read
(the file oracle), and an admitted file is classified with empty
content. -/
theorem content_scan_allowlist_gate (cfg : SorterCfg) (o o2 : FileOracle)
    (fs0 fs1 : FS) (p : FPath)
    (h : cfg.contentScanExts.contains (pyLower (pySuffix (pathName p))) = false) :
    process_file cfg o fs0 fs1 p = process_file cfg o2 fs0 fs1 p ∧
      (admit_checks fs0 p = true → admit_checks fs1 p = true →
        process_file cfg o fs0 fs1 p = .ok (classifyAndMove fs1 p "")) := by
  have hsc : ∀ o' : FileOracle, scanned_content cfg o' (pathName p) = .ok "" := by
    intro o'
    unfold scanned_content
    rw [h]
    simp
  constructor
  · unfold process_file
    rw [hsc o, hsc o2]
  · intro h0 h1
    rw [admit_checks, Bool.and_eq_true] at h0 h1
    obtain ⟨hab0, htmp0⟩ := h0
    obtain ⟨hab1, _⟩ := h1
    have htmp : is_temporary_download (pathName p) = false := by
      cases hx : is_temporary_download (pathName p) with
      | false => rfl
      | true => rw [hx] at htmp0; simp at htmp0
    unfold process_file
    simp [hab0, hab1, htmp, hsc o]

/-- Witness for C8: with an empty allow-list, a text file is admitted
and classified with empty content. -/
theorem content_scan_allowlist_gate_witness :
    process_file cfgNone oracleNone fsNotes fsNotes pNotes =
      .ok (classifyAndMove fsNotes pNotes "") :=
  (content_scan_allowlist_gate cfgNone oracleNone oracleNone fsNotes fsNotes pNotes
    (by decide)).2 (by decide) (by decide)

/-! ## No match, no effect -/

/-- C9: when no glob route, no filename-keyword route and no
content-keyword route matches, `match_route` returns `none` and
processing performs no move and creates no directory — the filesystem
after the pipeline is exactly the post-settle filesystem. -/
theorem no_match_no_move (fn c : String)
    (hg : ROUTES.find? (globPred fn) = none)
    (hk : ROUTES.find? (kwFilePred fn) = none)
    (hc : pyLowerContent c ≠ "" → ROUTES.find? (kwContentPred c) = none) :
    match_route fn c = none ∧
      ∀ (cfg : SorterCfg) (o : FileOracle) (fs0 fs1 : FS) (p : FPath),
        pathName p = fn → scanned_content cfg o (pathName p) = .ok c →
        process_file cfg o fs0 fs1 p = .ok (fs1, none) := by
  have hmr : match_route fn c = none := match_route_over_none hg hk hc
  refine ⟨hmr, ?_⟩
  intro cfg o fs0 fs1 p hname hsc
  have hcm : classifyAndMove fs1 p c = (fs1, none) := by
    simp [classifyAndMove, hname, hmr]
  unfold process_file
  cases hab0 : (fsExists fs0 p && fsIsFile fs0 p) with
  | false => simp [hab0]
  | true =>
    cases htmp : is_temporary_download (pathName p) with
    | true => simp [hab0, htmp]
    | false =>
      cases hab1 : (fsExists fs1 p && fsIsFile fs1 p) with
      | false => simp [hab0, htmp, hab1]
      | true => simp [hab0, htmp, hab1, hsc, hcm]

/-- Witness for C9: the name `zzz` with empty content matches no phase
and the file is left in place. -/
theorem no_match_no_move_witness :
    match_route "zzz" "" = none ∧
      process_file cfgNone oracleNone fsZzz fsZzz pZzz = .ok (fsZzz, none) :=
  ⟨(no_match_no_move "zzz" "" (by decide) (by decide) (by decide)).1,
   (no_match_no_move "zzz" "" (by decide) (by decide) (by decide)).2
     cfgNone oracleNone fsZzz fsZzz pZzz (by decide) (by decide)⟩

/-! ## Dotfiles and temporary detection -/

/-- Helper: a character list without a dot has no last-dot index. -/
theorem lastDotIdx_eq_none {cs : List Char} (h : cs.contains '.' = false) :
    lastDotIdx cs = none := by
  induction cs with
  | nil => rfl
  | cons c t ih =>
    rw [List.contains_cons, Bool.or_eq_false_iff] at h
    have hne : ¬ c = '.' := by
      intro hcc
      rw [hcc] at h
      simp at h
    rw [lastDotIdx, ih h.2]
    simp [hne]

/-- C10: a file whose name starts with a dot and has no further dot
(such as a file named exactly `.crdownload`) has an empty
`Path.suffix`, so `is_temporary_download` returns false — it cannot
begin with the lock prefix either — and such a file passes the
admission checks whenever it exists as a regular file. -/
theorem bare_dotfile_not_temporary (name : String)
    (h1 : name.data.head? = some '.')
    (h2 : name.data.tail.contains '.' = false) :
    is_temporary_download name = false ∧
      startsWithStr name "~$" = false ∧
      ∀ (fs : FS) (p : FPath), pathName p = name →
        fsExists fs p = true → fsIsFile fs p = true → admit_checks fs p = true := by
  obtain ⟨cs, hd⟩ : ∃ cs, name.data = '.' :: cs := by
    cases hx : name.data with
    | nil => rw [hx] at h1; simp at h1
    | cons c t =>
      rw [hx] at h1
      simp at h1
      exact ⟨t, by rw [h1]⟩
  have hcs : cs.contains '.' = false := by
    rw [hd] at h2
    simpa using h2
  have hsuf : pySuffix name = "" := by
    rw [pySuffix, hd, lastDotIdx, lastDotIdx_eq_none hcs]
    simp
  have hsw : startsWithStr name "~$" = false := by
    rw [startsWithStr, hd]
    simp [isPrefixL]
  have htmp : is_temporary_download name = false := by
    rw [is_temporary_download, hsuf, hsw]
    decide
  refine ⟨htmp, hsw, ?_⟩
  intro fs p hp hE hF
  rw [admit_checks, hE, hF, hp, htmp]
  rfl

/-- Witness for C10: the dotfile `.crdownload` is not temporary and is
admitted when present as a regular file. -/
theorem bare_dotfile_not_temporary_witness :
    is_temporary_download ".crdownload" = false ∧
      admit_checks fsDotCrdl pDotCrdl = true :=
  ⟨(bare_dotfile_not_temporary ".crdownload" (by decide) (by decide)).1,
   (bare_dotfile_not_temporary ".crdownload" (by decide) (by decide)).2.2
     fsDotCrdl pDotCrdl (by decide) (by decide) (by decide)⟩

/-! ## Collision resolution in the mover -/

/-- Helper: characters rendered by `natDigitsF` are decimal digits, in
particular never a closing parenthesis. -/
theorem natDigitsF_ne_rparen (fuel : Nat) : ∀ n, ∀ c ∈ natDigitsF fuel n, c ≠ ')' := by
  induction fuel with
  | zero => intro n c hc; simp [natDigitsF] at hc
  | succ f ih =>
    intro n c hc
    rw [natDigitsF] at hc
    by_cases h0 : n = 0
    · rw [if_pos h0] at hc; simp at hc
    · rw [if_neg h0] at hc
      rcases List.mem_append.mp hc with h | h
      · exact ih _ c h
      · simp at h
        subst h
        have hr : n % 10 < 10 := Nat.mod_lt _ (by omega)
        set r := n % 10 with hrdef
        interval_cases r <;> decide

/-- Helper: evaluating the digit rendering of one more digit. -/
theorem digitsVal_append_digit (cs : List Char) (d : Char) :
    digitsVal (cs ++ [d]) = digitsVal cs * 10 + (d.toNat - 48) := by
  simp [digitsVal, List.foldl_append]

/-- Helper: `digitsVal` is a left inverse of `natDigitsF` when the
fuel covers the number. -/
theorem digitsVal_natDigitsF : ∀ fuel n, n < 10 ^ fuel → digitsVal (natDigitsF fuel n) = n := by
  intro fuel
  induction fuel with
  | zero =>
    intro n h
    simp at h
    subst h
    decide
  | succ f ih =>
    intro n h
    by_cases h0 : n = 0
    · subst h0; simp [natDigitsF, digitsVal]
    · have hdiv : n / 10 < 10 ^ f := by
        rw [pow_succ] at h
        exact (Nat.div_lt_iff_lt_mul (by norm_num)).mpr h
      rw [natDigitsF, if_neg h0, digitsVal_append_digit, ih (n / 10) hdiv]
      have hr : n % 10 < 10 := Nat.mod_lt _ (by omega)
      have hdg : (digitChar10 (n % 10)).toNat = 48 + n % 10 := by
        set r := n % 10 with hrdef
        interval_cases r <;> decide
      omega

/-- Helper: `digitsVal` recovers a natural from its Python rendering. -/
theorem digitsVal_natRepr (n : Nat) : digitsVal (natRepr n).data = n := by
  by_cases h : n = 0
  · subst h; decide
  · rw [natRepr, if_neg h]
    have hb : n < 10 ^ (n + 1) :=
      lt_of_lt_of_le (Nat.lt_pow_self (by norm_num) n)
        (Nat.pow_le_pow_right (by norm_num) (Nat.le_succ n))
    exact digitsVal_natDigitsF (n + 1) n hb

/-- Helper: no closing parenthesis among the rendered digits. -/
theorem natRepr_ne_rparen (n : Nat) : ∀ c ∈ (natRepr n).data, c ≠ ')' := by
  by_cases h : n = 0
  · subst h; decide
  · rw [natRepr, if_neg h]
    exact fun c hc => natDigitsF_ne_rparen (n + 1) n c hc

/-- Helper: splitting at the first closing parenthesis after a run of
parenthesis-free characters is unambiguous. -/
theorem digits_append_sep : ∀ (xs : List Char), ∀ (ys u v : List Char),
    (∀ c ∈ xs, c ≠ ')') → (∀ c ∈ ys, c ≠ ')') →
    xs ++ ')' :: u = ys ++ ')' :: v → xs = ys ∧ u = v := by
  intro xs
  induction xs with
  | nil =>
    intro ys u v _ hy h
    cases ys with
    | nil => simpa using h
    | cons y t =>
      simp at h
      exact absurd h.1.symm (hy y (by simp))
  | cons x t ih =>
    intro ys u v hx hy h
    cases ys with
    | nil =>
      simp at h
      exact absurd h.1 (hx x (by simp))
    | cons y t2 =>
      simp at h
      obtain ⟨rfl, h2⟩ := h
      obtain ⟨h3, h4⟩ := ih t2 u v (fun c hc => hx c (by simp [hc]))
        (fun c hc => hy c (by simp [hc])) h2
      exact ⟨by rw [h3], h4⟩

/-- Helper: string concatenation acts componentwise on `data`. -/
theorem strApp_data (a b : String) : (a ++ b).data = a.data ++ b.data := rfl

/-- Helper: the probed collision names are pairwise distinct. -/
theorem mkCandidate_inj {stem suf : String} {i j : Nat}
    (h : mkCandidate stem suf i = mkCandidate stem suf j) : i = j := by
  have hd := congrArg String.data h
  simp only [mkCandidate, strApp_data, List.append_assoc] at hd
  have h1 := List.append_cancel_left hd
  have h2 := List.append_cancel_left h1
  obtain ⟨heq, _⟩ := digits_append_sep (natRepr i).data (natRepr j).data
    (suf.data) (suf.data) (natRepr_ne_rparen i) (natRepr_ne_rparen j) h2
  calc i = digitsVal (natRepr i).data := (digitsVal_natRepr i).symm
    _ = digitsVal (natRepr j).data := by rw [heq]
    _ = j := digitsVal_natRepr j

/-- Helper: among the first `length + 1` probed names, some name is
free — there are more candidate names than filesystem entries. -/
theorem exists_free_candidate (fs : FS) (dd : FPath) (stem suf : String) :
    ∃ n, 1 ≤ n ∧ n ≤ fs.files.length + fs.dirs.length + 1 ∧
      fsExists fs (dd ++ [mkCandidate stem suf n]) = false := by
  by_contra hcon
  push_neg at hcon
  have hmap : ∀ n ∈ Finset.Icc 1 (fs.files.length + fs.dirs.length + 1),
      (dd ++ [mkCandidate stem suf n]) ∈ (fs.files ++ fs.dirs).toFinset := by
    intro n hn
    rw [Finset.mem_Icc] at hn
    have hne := hcon n hn.1 hn.2
    have hex : fsExists fs (dd ++ [mkCandidate stem suf n]) = true := by
      cases hx : fsExists fs (dd ++ [mkCandidate stem suf n]) with
      | true => rfl
      | false => exact absurd hx hne
    rw [fsExists, decide_eq_true_eq] at hex
    rw [List.mem_toFinset, List.mem_append]
    exact hex
  have hinj : Set.InjOn (fun n => dd ++ [mkCandidate stem suf n])
      (Finset.Icc 1 (fs.files.length + fs.dirs.length + 1)) := by
    intro a _ b _ hab
    simp only at hab
    have h1 := List.append_cancel_left hab
    have hx : mkCandidate stem suf a = mkCandidate stem suf b := by
      simpa using h1
    exact mkCandidate_inj hx
  have hcard := Finset.card_le_card_of_injOn _ hmap hinj
  rw [Nat.card_Icc] at hcard
  have hle := List.toFinset_card_le (fs.files ++ fs.dirs)
  rw [List.length_append] at hle
  omega

/-- Helper: whenever some candidate within the fuel is free, the probe
returns the least free index at or beyond its start. -/
theorem probe_spec (fs : FS) (dd : FPath) (stem suf : String) :
    ∀ (fuel i : Nat),
      (∃ k, k < fuel ∧ fsExists fs (dd ++ [mkCandidate stem suf (i + k)]) = false) →
      ∃ n, probe fs dd stem suf i fuel = some n ∧ i ≤ n ∧
        fsExists fs (dd ++ [mkCandidate stem suf n]) = false ∧
        ∀ m, i ≤ m → m < n → fsExists fs (dd ++ [mkCandidate stem suf m]) = true := by
  intro fuel
  induction fuel with
  | zero =>
    rintro i ⟨k, hk, _⟩
    omega
  | succ f ih =>
    rintro i ⟨k, hk, hfree⟩
    cases hx : fsExists fs (dd ++ [mkCandidate stem suf i]) with
    | false =>
      refine ⟨i, ?_, le_refl i, hx,
        fun m hm1 hm2 => absurd (lt_of_le_of_lt hm1 hm2) (lt_irrefl i)⟩
      rw [probe, hx]
      simp
    | true =>
      have hk0 : k ≠ 0 := by
        rintro rfl
        rw [Nat.add_zero] at hfree
        rw [hfree] at hx
        exact Bool.false_ne_true hx
      obtain ⟨n, hp, hin, hf2, hmin⟩ := ih (i + 1)
        ⟨k - 1, by omega, by rw [show i + 1 + (k - 1) = i + k by omega]; exact hfree⟩
      refine ⟨n, ?_, by omega, hf2, ?_⟩
      · rw [probe, hx]
        simpa using hp
      · intro m hm1 hm2
        rcases Nat.eq_or_lt_of_le hm1 with rfl | hlt
        · exact hx
        · exact hmin m (by omega) hm2

/-- Helper: with the fuel `move_file` uses, the probe always succeeds
and yields the least free index from 1 on. -/
theorem probe_at_move_spec (fs : FS) (dd : FPath) (stem suf : String) :
    ∃ n, probe fs dd stem suf 1 (moveFuel fs) = some n ∧ 1 ≤ n ∧
      fsExists fs (dd ++ [mkCandidate stem suf n]) = false ∧
      ∀ m, 1 ≤ m → m < n → fsExists fs (dd ++ [mkCandidate stem suf m]) = true := by
  obtain ⟨n, hn1, hn2, hfree⟩ := exists_free_candidate fs dd stem suf
  obtain ⟨n2, h⟩ := probe_spec fs dd stem suf (moveFuel fs) 1
    ⟨n - 1, by rw [moveFuel]; omega,
      by rw [show 1 + (n - 1) = n by omega]; exact hfree⟩
  exact ⟨n2, h.1, h.2.1, h.2.2.1, h.2.2.2⟩

/-- C2: when the naive target name is already occupied, `move_file`
probes the names with the parenthesized counter inserted before the
extension, with n starting at 1 and incrementing until an unoccupied
one is found, and moves the file there; in particular moving `a.txt`
into a folder already holding `a.txt` produces `a (1).txt`, and a
third copy produces `a (2).txt`. -/
theorem move_file_collision_probe :
    (∀ (fs : FS) (src : FPath) (folder : String),
      fsExists (moveFs1 fs folder) (moveDestDir folder ++ [pathName src]) = true →
      ∃ n, 1 ≤ n ∧
        fsExists (moveFs1 fs folder)
          (moveDestDir folder ++
            [mkCandidate (pyStem (pathName src)) (pySuffix (pathName src)) n]) = false ∧
        (∀ m, 1 ≤ m → m < n →
          fsExists (moveFs1 fs folder)
            (moveDestDir folder ++
              [mkCandidate (pyStem (pathName src)) (pySuffix (pathName src)) m]) = true) ∧
        move_file fs src folder =
          ({ moveFs1 fs folder with
              files := (moveFs1 fs folder).files.erase src ++
                [moveDestDir folder ++
                  [mkCandidate (pyStem (pathName src)) (pySuffix (pathName src)) n]] },
            some (moveDestDir folder ++
              [mkCandidate (pyStem (pathName src)) (pySuffix (pathName src)) n]))) ∧
      (move_file fsOneColl srcATxt "Files").2 = some (moveDestDir "Files" ++ ["a (1).txt"]) ∧
      (move_file fsTwoColl srcATxt "Files").2 = some (moveDestDir "Files" ++ ["a (2).txt"]) := by
  refine ⟨?_, by decide, by decide⟩
  intro fs src folder hocc
  obtain ⟨n, hp, h1, hfree, hmin⟩ := probe_at_move_spec (moveFs1 fs folder)
    (moveDestDir folder) (pyStem (pathName src)) (pySuffix (pathName src))
  refine ⟨n, h1, hfree, hmin, ?_⟩
  simp [move_file, hocc, hp]

/-- Witness for C2: in a filesystem whose destination folder already
holds `a.txt`, the probe finds a free index and the move lands on the
probed name. -/
theorem move_file_collision_probe_witness :
    ∃ n, 1 ≤ n ∧
      fsExists (moveFs1 fsOneColl "Files")
        (moveDestDir "Files" ++
          [mkCandidate (pyStem (pathName srcATxt)) (pySuffix (pathName srcATxt)) n]) = false ∧
      (∀ m, 1 ≤ m → m < n →
        fsExists (moveFs1 fsOneColl "Files")
          (moveDestDir "Files" ++
            [mkCandidate (pyStem (pathName srcATxt)) (pySuffix (pathName srcATxt)) m]) = true) ∧
      move_file fsOneColl srcATxt "Files" =
        ({ moveFs1 fsOneColl "Files" with
            files := (moveFs1 fsOneColl "Files").files.erase srcATxt ++
              [moveDestDir "Files" ++
                [mkCandidate (pyStem (pathName srcATxt)) (pySuffix (pathName srcATxt)) n]] },
          some (moveDestDir "Files" ++
            [mkCandidate (pyStem (pathName srcATxt)) (pySuffix (pathName srcATxt)) n])) :=
  move_file_collision_probe.1 fsOneColl srcATxt "Files" (by decide)
